import Mathlib

/-!
Shallow embedding of the skil-sync-fullstack matching subsystem
(`app/services/matching_engine.py`, `app/services/batch_matching_service.py`,
`app/services/resume_intelligence_service.py`, `app/routes/internship.py`,
`app/routes/intelligent_filtering.py`, `app/routes/recommendations.py`),
together with theorems settling claims about it.

Python floats are modelled by `ℚ` where the computation is exact decimal
arithmetic and by `ℝ` where square roots appear (cosine similarity);
Python exceptions are modelled by `Option` (`none` = exception raised).
Python strings are Lean `String`s; the character-level operations
(`lower`, `strip`, substring tests) are modelled on `List Char`.
-/

/-- Python `str.strip()` on a char list: remove leading and trailing
whitespace. -/
def trimChars (cs : List Char) : List Char :=
  ((cs.dropWhile Char.isWhitespace).reverse.dropWhile Char.isWhitespace).reverse

/-- Python `str.lower()` (ASCII case folding, which covers the skill and degree
vocabulary the services compare). -/
def pyLowerChars (s : String) : List Char := s.toList.map Char.toLower

/-- Python `a in b` on strings: `needle` occurs as a contiguous substring. -/
def sublistB (needle : List Char) : List Char → Bool
  | [] => needle.isEmpty
  | c :: rest => needle.isPrefixOf (c :: rest) || sublistB needle rest

/-- `matching_engine.py`: skill normalization `s.lower().strip()`. -/
def normalize_skill (s : String) : List Char := trimChars (pyLowerChars s)

/-- `matching_engine.py` lines 187-191 / 199-203: a (normalized) job skill is
matched when some candidate skill contains it or is contained in it
(`skill in cand_skill or cand_skill in skill`). -/
def skill_matched (candidate_norm : List (List Char)) (skill : List Char) : Bool :=
  candidate_norm.any (fun cand_skill => sublistB skill cand_skill || sublistB cand_skill skill)

/-- `MatchingEngine._calculate_skills_match` (matching_engine.py 166-208). -/
def calculate_skills_match (candidate_skills required_skills preferred_skills : List String) : ℚ :=
  if required_skills = [] then 100
  else
    let candidate_skills_normalized := candidate_skills.map normalize_skill
    let required_skills_normalized := required_skills.map normalize_skill
    let preferred_skills_normalized := preferred_skills.map normalize_skill
    let matched_required : ℕ :=
      required_skills_normalized.countP
        (fun skill => skill_matched candidate_skills_normalized skill)
    let required_score : ℚ :=
      ((matched_required : ℚ) / (required_skills_normalized.length : ℚ)) * 70
    let preferred_score : ℚ :=
      if preferred_skills_normalized = [] then 30
      else
        ((preferred_skills_normalized.countP
            (fun skill => skill_matched candidate_skills_normalized skill) : ℚ) /
          (preferred_skills_normalized.length : ℚ)) * 30
    required_score + preferred_score

/-- `MatchingEngine._calculate_experience_match` (matching_engine.py 210-237). -/
def calculate_experience_match (candidate_exp min_exp max_exp : ℚ) : ℚ :=
  if candidate_exp ≥ min_exp ∧ candidate_exp ≤ max_exp then 100
  else if candidate_exp < min_exp then
    let gap := min_exp - candidate_exp
    if gap ≤ 1/2 then 90
    else if gap ≤ 1 then 70
    else if gap ≤ 2 then 50
    else 30
  else 85

/-- One entry of `candidate_data['education']`; only the `degree` string is read
by the engine. -/
structure EducationEntry where
  degree : String
deriving DecidableEq

/-- The `education_hierarchy` dict of `_calculate_education_match`, in its
(insertion-ordered) iteration order. -/
def education_hierarchy : List (String × ℤ) :=
  [("phd", 5), ("doctorate", 5), ("master", 4), ("mba", 4),
   ("bachelor", 3), ("diploma", 2), ("certificate", 1)]

/-- Required level: first hierarchy key occurring in the lowercased requirement
string (the Python loop breaks on the first hit), default 0. -/
def required_education_level (required_lower : List Char) : ℤ :=
  match education_hierarchy.find? (fun kv => sublistB kv.1.toList required_lower) with
  | some kv => kv.2
  | none => 0

/-- Candidate level: running max over every education entry and every hierarchy
key occurring in the lowercased degree (the Python inner loop has no break). -/
def candidate_education_level (edus : List EducationEntry) : ℤ :=
  edus.foldl
    (fun acc e =>
      education_hierarchy.foldl
        (fun a kv => if sublistB kv.1.toList (pyLowerChars e.degree) then max a kv.2 else a) acc)
    0

/-- `MatchingEngine._calculate_education_match` (matching_engine.py 239-285). -/
def calculate_education_match (candidate_education : List EducationEntry)
    (required_education : String) : ℚ :=
  if required_education = "" ∨ candidate_education = [] then 70
  else
    let required_level := required_education_level (pyLowerChars required_education)
    let candidate_level := candidate_education_level candidate_education
    if candidate_level ≥ required_level then 100
    else if candidate_level = required_level - 1 then 80
    else 50

/-- `MatchingEngine._calculate_additional_credentials` (matching_engine.py
287-316).  Projects and certifications are dicts whose content is not read by
the scoring; they are modelled by opaque name strings. -/
def calculate_additional_credentials (projects certifications : List String) : ℚ :=
  let project_score : ℚ :=
    if projects = [] then 0
    else if projects.length ≥ 5 then 60 else (projects.length : ℚ) * 12
  let cert_score : ℚ :=
    if certifications = [] then 0
    else if certifications.length ≥ 4 then 40 else (certifications.length : ℚ) * 10
  min (project_score + cert_score) 100

/-- `np.dot` on the two embedding lists: sum of pairwise products. -/
def dotL : List ℝ → List ℝ → ℝ
  | x :: xs, y :: ys => x * y + dotL xs ys
  | _, _ => 0

/-- Sum of squares of a vector (`np.linalg.norm` squared). -/
def normSqL : List ℝ → ℝ
  | [] => 0
  | x :: xs => x * x + normSqL xs

/-- `np.linalg.norm`: Euclidean norm. -/
noncomputable def normL (v : List ℝ) : ℝ := Real.sqrt (normSqL v)

/-- `MatchingEngine._calculate_cosine_similarity` (matching_engine.py 135-164).
`none` models the `ValueError` raised for missing/empty vectors and for zero
vectors; otherwise the raw cosine `dot / (‖v1‖·‖v2‖)` is returned. -/
noncomputable def calculate_cosine_similarity (vec1 vec2 : List ℝ) : Option ℝ :=
  if vec1.length = 0 ∨ vec2.length = 0 then none
  else if normL vec1 = 0 ∨ normL vec2 = 0 then none
  else some (dotL vec1 vec2 / (normL vec1 * normL vec2))

/-- Python `round(x, 2)` (round to two decimal places). -/
noncomputable def round2R (x : ℝ) : ℝ := ((round (100 * x) : ℤ) : ℝ) / 100

/-- Python `round(x, 2)` on the exactly-rational component scores. -/
def round2Q (x : ℚ) : ℚ := ((round (100 * x) : ℤ) : ℚ) / 100

/-- Python `int(x)` on a float: truncation toward zero. -/
noncomputable def pyTruncR (x : ℝ) : ℤ := if 0 ≤ x then ⌊x⌋ else ⌈x⌉

/-- Structured candidate profile: the fields of `candidate_data` read by
`MatchingEngine.calculate_match_score`. -/
structure CandidateData where
  all_skills : List String
  total_experience_years : ℚ
  education : List EducationEntry
  projects : List String
  certifications : List String

/-- Posting data: the fields of `internship_data` read by the engine. -/
structure InternshipData where
  required_skills : List String
  preferred_skills : List String
  min_experience : ℚ
  max_experience : ℚ
  required_education : String

/-- The `match_result` dictionary of `calculate_match_score`: the overall score
and the component scores, each already rounded to two decimals. -/
structure MatchResult where
  overall_score : ℝ
  semantic_similarity : ℝ
  skills_match : ℚ
  experience_match : ℚ
  education_match : ℚ
  projects_certifications : ℚ

/-- `MatchingEngine.calculate_match_score` (matching_engine.py 52-133):
cosine similarity scaled to a percentage, the four rule components, and the
weighted overall score (weights from matching_engine.py 44-50:
skills 0.45, experience 0.25, semantic 0.10, education 0.10,
projects/certifications 0.10).  `none` models the exception propagated from
`_calculate_cosine_similarity`. -/
noncomputable def calculate_match_score (cand : CandidateData) (post : InternshipData)
    (candidate_embedding internship_embedding : List ℝ) : Option MatchResult :=
  match calculate_cosine_similarity candidate_embedding internship_embedding with
  | none => none
  | some cos =>
    let semantic : ℝ := cos * 100
    let skills : ℚ :=
      calculate_skills_match cand.all_skills post.required_skills post.preferred_skills
    let experience : ℚ :=
      calculate_experience_match cand.total_experience_years post.min_experience
        post.max_experience
    let education : ℚ := calculate_education_match cand.education post.required_education
    let projects : ℚ := calculate_additional_credentials cand.projects cand.certifications
    let overall_score : ℝ :=
      (skills : ℝ) * 0.45 + (experience : ℝ) * 0.25 + semantic * 0.10 +
        (education : ℝ) * 0.10 + (projects : ℝ) * 0.10
    some
      { overall_score := round2R overall_score
        semantic_similarity := round2R semantic
        skills_match := round2Q skills
        experience_match := round2Q experience
        education_match := round2Q education
        projects_certifications := round2Q projects }

/-- `apply_to_internship` (internship.py 694):
`application_similarity = int(match_result['overall_score'])`. -/
noncomputable def application_similarity_score (r : MatchResult) : ℤ :=
  pyTruncR r.overall_score

/-- `apply_to_internship` (internship.py 703-707): the application similarity is
primary; the pre-computed baseline is used only when it exists and the
application similarity is 0. -/
noncomputable def final_match_score (application_similarity : ℤ)
    (base_similarity : Option ℝ) : ℤ :=
  match base_similarity with
  | some b => if application_similarity = 0 then pyTruncR b else application_similarity
  | none => application_similarity

/-- One row of the `student_internship_matches` table as built by
`BatchMatchingService._calculate_match` (batch_matching_service.py 219-228). -/
structure BatchMatchRow where
  base_similarity_score : ℝ
  semantic_similarity : ℝ
  skills_match_score : ℚ
  experience_match_score : ℚ

/-- `BatchMatchingService._calculate_match` (batch_matching_service.py
162-228): embeddings are fetched (missing ones become `[]`) and the engine is
invoked; `none` models the exception the engine raises, which
`compute_all_matches` catches. -/
noncomputable def batch_calculate_match (cand : CandidateData) (candidate_embedding : List ℝ)
    (post : InternshipData) (internship_embedding : List ℝ) : Option BatchMatchRow :=
  (calculate_match_score cand post candidate_embedding internship_embedding).map
    fun r =>
      { base_similarity_score := r.overall_score
        semantic_similarity := r.semantic_similarity
        skills_match_score := r.skills_match
        experience_match_score := r.experience_match }

/-- The inner loop of `BatchMatchingService.compute_all_matches`
(batch_matching_service.py 112-137): for one student, every internship is
tried; a pair whose computation raises is skipped and the loop continues. -/
noncomputable def compute_student_matches (cand : CandidateData) (candidate_embedding : List ℝ)
    (internships : List (InternshipData × List ℝ)) : List BatchMatchRow :=
  internships.filterMap (fun ip => batch_calculate_match cand candidate_embedding ip.1 ip.2)

/-- The outer loop of `BatchMatchingService.compute_all_matches`: rows are
accumulated per student and bulk-inserted. -/
noncomputable def compute_all_matches
    (students : List (CandidateData × List ℝ))
    (internships : List (InternshipData × List ℝ)) : List BatchMatchRow :=
  students.flatMap (fun s => compute_student_matches s.1 s.2 internships)

/-- The dual-resume scoring of `rank_candidates_for_internship`
(intelligent_filtering.py 212-300): when the application used a tailored
resume that has an embedding id, its score is recomputed and blended
`0.8 · tailored + 0.2 · base`; when the tailored embedding is missing the
pre-computed base row is used; with no scoring data at all the route raises
(`none`). -/
noncomputable def ranking_score_for_applicant (is_tailored has_embedding_id : Bool)
    (tailored_data : CandidateData) (internship_data : InternshipData)
    (tailored_embedding internship_embedding : List ℝ)
    (base_match : Option BatchMatchRow) : Option ℝ :=
  if is_tailored && has_embedding_id then
    if tailored_embedding.length = 0 then
      base_match.map (fun b => b.base_similarity_score)
    else
      match calculate_match_score tailored_data internship_data tailored_embedding
          internship_embedding with
      | none => none
      | some r =>
        match base_match with
        | some b => some (r.overall_score * 0.8 + b.base_similarity_score * 0.2)
        | none => some r.overall_score
  else
    base_match.map (fun b => b.base_similarity_score)

/-- A Python `datetime` restricted to the fields the experience computation
reads and compares (year, month, day). -/
structure PyDate where
  year : ℤ
  month : ℤ
  day : ℤ
deriving DecidableEq

/-- `datetime` comparison: lexicographic on (year, month, day). -/
def dateLE (a b : PyDate) : Bool :=
  if a.year ≠ b.year then decide (a.year < b.year)
  else if a.month ≠ b.month then decide (a.month < b.month)
  else decide (a.day ≤ b.day)

/-- Python `max` on two datetimes: the first argument wins ties. -/
def dateMax (a b : PyDate) : PyDate := if dateLE b a then a else b

/-- `datetime(year, month, day)`: `none` models the `ValueError` raised for an
out-of-range year or month.  (The callers below only construct day 1 or
December 31, so no finer day validation is needed.) -/
def mkdatetime (y m d : ℤ) : Option PyDate :=
  if 1 ≤ y ∧ y ≤ 9999 ∧ 1 ≤ m ∧ m ≤ 12 ∧ 1 ≤ d ∧ d ≤ 31 then some ⟨y, m, d⟩ else none

/-- Value of an ASCII digit string. -/
def digitsVal (cs : List Char) : ℕ := cs.foldl (fun n c => 10 * n + (c.toNat - 48)) 0

/-- Python `s.split(sep)` for a one-character separator: split on every
occurrence, keeping empty pieces (`''.split(sep) == ['']`). -/
def splitChar (sep : Char) : List Char → List (List Char)
  | [] => [[]]
  | c :: rest =>
    if c = sep then [] :: splitChar sep rest
    else
      match splitChar sep rest with
      | g :: gs => (c :: g) :: gs
      | [] => [[c]]

/-- Python `int(s)` (ASCII digits with an optional sign, surrounding whitespace
stripped); `none` models the `ValueError` on anything else. -/
def pyIntOfChars (s : List Char) : Option ℤ :=
  let parseDigits : List Char → Option ℤ := fun cs =>
    if cs ≠ [] ∧ cs.all Char.isDigit then some ((digitsVal cs : ℕ) : ℤ) else none
  match trimChars s with
  | '-' :: rest => (parseDigits rest).map (fun n => -n)
  | '+' :: rest => parseDigits rest
  | cs => parseDigits cs

/-- Start-date parsing of `_calculate_total_experience`
(resume_intelligence_service.py 180-185): `"YYYY-MM"` becomes the first of
that month, a bare year becomes January 1. -/
def parse_start_date (start_str : String) : Option PyDate :=
  let cs := start_str.toList
  if cs.contains '-' then
    match splitChar '-' cs with
    | [ys, ms] => do
      let y ← pyIntOfChars ys
      let m ← pyIntOfChars ms
      mkdatetime y m 1
    | _ => none
  else do
    let y ← pyIntOfChars cs
    mkdatetime y 1 1

/-- End-date parsing of `_calculate_total_experience`
(resume_intelligence_service.py 187-194): `present/current/now` become the
current date (passed in as `today`), `"YYYY-MM"` the first of that month, a
bare year December 31. -/
def parse_end_date (today : PyDate) (end_str : String) : Option PyDate :=
  let cs := end_str.toList
  if ["present", "current", "now"].map String.toList |>.contains (pyLowerChars end_str) then
    some today
  else if cs.contains '-' then
    match splitChar '-' cs with
    | [ys, ms] => do
      let y ← pyIntOfChars ys
      let m ← pyIntOfChars ms
      mkdatetime y m 1
    | _ => none
  else do
    let y ← pyIntOfChars cs
    mkdatetime y 12 31

/-- One work-experience entry: the two date strings read by
`_calculate_total_experience` (defaults `''` and `'Present'` are supplied by
the caller). -/
structure ExperienceEntry where
  start_date : String
  end_date : String

/-- Parse one entry to a date range; a parse failure in either date skips the
whole entry (the `except` branch of the Python loop). -/
def parse_date_range (today : PyDate) (e : ExperienceEntry) : Option (PyDate × PyDate) := do
  let s ← parse_start_date e.start_date
  let en ← parse_end_date today e.end_date
  pure (s, en)

/-- Stable insertion into a sorted list (front-insertion before the first
strictly-greater element keeps the original order of equal keys). -/
def insert_by (le : α → α → Bool) (a : α) : List α → List α
  | [] => [a]
  | b :: bs => if le a b then a :: b :: bs else b :: insert_by le a bs

/-- Stable sort; models Python's stable `list.sort(key=...)` (every stable
sort of a total preorder produces the same list). -/
def sort_by (le : α → α → Bool) : List α → List α
  | [] => []
  | a :: rest => insert_by le a (sort_by le rest)

/-- The merge sweep of `_calculate_total_experience`
(resume_intelligence_service.py 208-218): ranges are already sorted by start;
a range starting at or before the current end is merged (end = max of ends),
otherwise a new range begins. -/
def merge_sweep (cur : PyDate × PyDate) : List (PyDate × PyDate) → List (PyDate × PyDate)
  | [] => [cur]
  | (s, e) :: rest =>
    if dateLE s cur.2 then merge_sweep (cur.1, dateMax cur.2 e) rest
    else cur :: merge_sweep (s, e) rest

/-- Month length of a range (resume_intelligence_service.py 223):
`(end.year - start.year) * 12 + (end.month - start.month)`. -/
def months_between (s e : PyDate) : ℤ := (e.year - s.year) * 12 + (e.month - s.month)

/-- `ResumeIntelligenceService._calculate_total_experience`
(resume_intelligence_service.py 160-226): parse spans (skipping unparseable
ones), sort by start date, merge overlaps, and sum `max 0` of each merged
length in months. -/
def calculate_total_experience (today : PyDate) (experiences : List ExperienceEntry) : ℤ :=
  let date_ranges := experiences.filterMap (parse_date_range today)
  match sort_by (fun p q => dateLE p.1 q.1) date_ranges with
  | [] => 0
  | first :: rest =>
    ((merge_sweep first rest).map (fun r => max 0 (months_between r.1 r.2))).sum

/-- `extract_structured_data` (resume_intelligence_service.py 143-146):
`all_skills = list(set(technical + soft))`.  A Python `set` enumerates each
distinct element exactly once in an unspecified order; it is modelled as
duplicate removal, and only order-independent facts (membership, nodup) are
proved about it. -/
def extract_all_skills (technical soft : List String) : List String :=
  (technical ++ soft).dedup

/-- The skills filter of `get_recommendations_for_student`
(recommendations.py 134-138): the comma-separated filter string is split and
stripped, and a posting is kept when `or_`-ing the per-skill
`json_contains(required_skills, skill)` tests succeeds, i.e. when at least one
provided skill is an exact member of the posting's required skills. -/
def recommendation_skills_filter (skills : String) (required_skills : List String) : Bool :=
  let skill_list := (splitChar ',' skills.toList).map trimChars
  skill_list.any (fun skill => (required_skills.map String.toList).contains skill)


/-! ### Helper lemmas -/

lemma normSqL_nonneg (v : List ℝ) : 0 ≤ normSqL v := by
  induction v with
  | nil => simp [normSqL]
  | cons x xs ih => simp only [normSqL]; nlinarith [sq_nonneg x]

lemma cs_step (x y d nv nw : ℝ) (hd : d ^ 2 ≤ nv * nw) (hnv : 0 ≤ nv) (hnw : 0 ≤ nw) :
    (x * y + d) ^ 2 ≤ (x * x + nv) * (y * y + nw) := by
  have hA : 0 ≤ x ^ 2 * nw + y ^ 2 * nv := by positivity
  have h1 : (2 * x * y * d) ^ 2 ≤ (x ^ 2 * nw + y ^ 2 * nv) ^ 2 := by
    nlinarith [sq_nonneg (x ^ 2 * nw - y ^ 2 * nv),
      mul_nonneg (mul_nonneg (sq_nonneg x) (sq_nonneg y)) (sub_nonneg.mpr hd)]
  have h2 : 2 * x * y * d ≤ x ^ 2 * nw + y ^ 2 * nv := by nlinarith [h1, hA]
  nlinarith [h2, hd]

/-- Cauchy-Schwarz for the list dot product. -/
lemma dotL_sq_le (v w : List ℝ) : (dotL v w) ^ 2 ≤ normSqL v * normSqL w := by
  induction v generalizing w with
  | nil =>
    simp only [dotL, normSqL]
    nlinarith [normSqL_nonneg w]
  | cons x xs ih =>
    cases w with
    | nil =>
      simp only [dotL, normSqL]
      nlinarith [normSqL_nonneg (x :: xs)]
    | cons y ys =>
      simp only [dotL, normSqL]
      exact cs_step x y (dotL xs ys) (normSqL xs) (normSqL ys) (ih ys)
        (normSqL_nonneg xs) (normSqL_nonneg ys)

/-- Inversion for the cosine computation: a returned similarity is in [-1, 1]. -/
lemma cosine_some_bounds {v w : List ℝ} {c : ℝ}
    (h : calculate_cosine_similarity v w = some c) : -1 ≤ c ∧ c ≤ 1 := by
  unfold calculate_cosine_similarity at h
  split_ifs at h with h1 h2
  push_neg at h2
  obtain ⟨hv, hw⟩ := h2
  have hv' : 0 < normL v := lt_of_le_of_ne (Real.sqrt_nonneg _) (Ne.symm hv)
  have hw' : 0 < normL w := lt_of_le_of_ne (Real.sqrt_nonneg _) (Ne.symm hw)
  have hsq : (dotL v w) ^ 2 ≤ (normL v * normL w) ^ 2 := by
    have : (normL v * normL w) ^ 2 = normSqL v * normSqL w := by
      rw [mul_pow]
      unfold normL
      rw [Real.sq_sqrt (normSqL_nonneg v), Real.sq_sqrt (normSqL_nonneg w)]
    rw [this]
    exact dotL_sq_le v w
  have habs : |dotL v w| ≤ normL v * normL w := by
    have h' := Real.sqrt_le_sqrt hsq
    rwa [Real.sqrt_sq_eq_abs, Real.sqrt_sq_eq_abs,
      abs_of_nonneg (le_of_lt (mul_pos hv' hw'))] at h'
  have hc : c = dotL v w / (normL v * normL w) := (Option.some.inj h).symm
  have : |c| ≤ 1 := by
    rw [hc, abs_div, abs_of_nonneg (le_of_lt (mul_pos hv' hw'))]
    exact (div_le_one (mul_pos hv' hw')).mpr habs
  exact abs_le.mp this

lemma frac_score_bounds (m n : ℕ) (k : ℚ) (hk : 0 ≤ k) (hmn : m ≤ n) (hn : n ≠ 0) :
    0 ≤ (m : ℚ) / (n : ℚ) * k ∧ (m : ℚ) / (n : ℚ) * k ≤ k := by
  have hn' : (0 : ℚ) < n := by exact_mod_cast Nat.pos_of_ne_zero hn
  have hdiv : (m : ℚ) / (n : ℚ) ≤ 1 := (div_le_one hn').mpr (by exact_mod_cast hmn)
  have hdiv0 : 0 ≤ (m : ℚ) / (n : ℚ) := by positivity
  constructor
  · positivity
  · nlinarith [hdiv, hdiv0, hk]

lemma skills_match_bounds (C R P : List String) :
    0 ≤ calculate_skills_match C R P ∧ calculate_skills_match C R P ≤ 100 := by
  simp only [calculate_skills_match]
  split_ifs with h hp
  · norm_num
  · have hlen : (R.map normalize_skill).length ≠ 0 := by
      simpa [List.length_eq_zero] using h
    have hb := frac_score_bounds
      ((R.map normalize_skill).countP (fun skill => skill_matched (C.map normalize_skill) skill))
      (R.map normalize_skill).length 70 (by norm_num) (List.countP_le_length _) hlen
    refine ⟨?_, ?_⟩
    · linarith [hb.1]
    · linarith [hb.2]
  · have hlenR : (R.map normalize_skill).length ≠ 0 := by
      simpa [List.length_eq_zero] using h
    have hlenP : (P.map normalize_skill).length ≠ 0 := by
      simpa [List.length_eq_zero] using hp
    have hbR := frac_score_bounds
      ((R.map normalize_skill).countP (fun skill => skill_matched (C.map normalize_skill) skill))
      (R.map normalize_skill).length 70 (by norm_num) (List.countP_le_length _) hlenR
    have hbP := frac_score_bounds
      ((P.map normalize_skill).countP (fun skill => skill_matched (C.map normalize_skill) skill))
      (P.map normalize_skill).length 30 (by norm_num) (List.countP_le_length _) hlenP
    refine ⟨?_, ?_⟩
    · linarith [hbR.1, hbP.1]
    · linarith [hbR.2, hbP.2]

lemma experience_match_bounds_aux (y lo hi : ℚ) :
    30 ≤ calculate_experience_match y lo hi ∧ calculate_experience_match y lo hi ≤ 100 := by
  simp only [calculate_experience_match]
  split_ifs <;> norm_num

lemma education_match_bounds_aux (E : List EducationEntry) (req : String) :
    50 ≤ calculate_education_match E req ∧ calculate_education_match E req ≤ 100 := by
  simp only [calculate_education_match]
  split_ifs <;> norm_num

lemma additional_credentials_bounds (P C : List String) :
    0 ≤ calculate_additional_credentials P C ∧ calculate_additional_credentials P C ≤ 100 := by
  unfold calculate_additional_credentials
  constructor
  · apply le_min _ (by norm_num)
    have h1 : (0 : ℚ) ≤ if P = [] then 0 else if P.length ≥ 5 then 60 else (P.length : ℚ) * 12 := by
      split_ifs <;> positivity
    have h2 : (0 : ℚ) ≤ if C = [] then 0 else if C.length ≥ 4 then 40 else (C.length : ℚ) * 10 := by
      split_ifs <;> positivity
    linarith
  · exact min_le_right _ _

lemma round_le_round' {x y : ℝ} (h : x ≤ y) : round x ≤ round y := by
  rw [round_eq, round_eq]
  exact Int.floor_le_floor (by linarith)

lemma round2R_bounds {x : ℝ} {a b : ℤ} (hax : (a : ℝ) ≤ x) (hxb : x ≤ (b : ℝ)) :
    (a : ℝ) ≤ round2R x ∧ round2R x ≤ (b : ℝ) := by
  unfold round2R
  have h1 : 100 * a ≤ round (100 * x) := by
    have h' := round_le_round' (show ((100 * a : ℤ) : ℝ) ≤ 100 * x by push_cast; linarith)
    rwa [round_intCast] at h'
  have h2 : round (100 * x) ≤ 100 * b := by
    have h' := round_le_round' (show 100 * x ≤ ((100 * b : ℤ) : ℝ) by push_cast; linarith)
    rwa [round_intCast] at h'
  constructor
  · rw [le_div_iff (show (0:ℝ) < 100 by norm_num)]
    have h' : ((100 * a : ℤ) : ℝ) ≤ ((round (100 * x) : ℤ) : ℝ) := by exact_mod_cast h1
    push_cast at h' ⊢
    linarith
  · rw [div_le_iff (show (0:ℝ) < 100 by norm_num)]
    have h' : ((round (100 * x) : ℤ) : ℝ) ≤ ((100 * b : ℤ) : ℝ) := by exact_mod_cast h2
    push_cast at h' ⊢
    linarith

lemma round2R_rat (q : ℚ) : round2R (q : ℝ) = ((round2Q q : ℚ) : ℝ) := by
  unfold round2R round2Q
  have h : (100 : ℝ) * (q : ℝ) = ((100 * q : ℚ) : ℝ) := by push_cast; ring
  rw [h, Rat.round_cast]
  push_cast
  ring

lemma pyTruncR_bounds {x : ℝ} {b : ℤ} (h0 : 0 ≤ x) (hb : x ≤ (b : ℝ)) :
    0 ≤ pyTruncR x ∧ pyTruncR x ≤ b := by
  unfold pyTruncR
  rw [if_pos h0]
  constructor
  · exact Int.le_floor.mpr (by exact_mod_cast h0)
  · have h' := Int.floor_le_floor hb
    rwa [Int.floor_intCast] at h'

lemma round2Q_eq_self {q : ℚ} {n : ℤ} (h : 100 * q = (n : ℚ)) : round2Q q = q := by
  unfold round2Q
  rw [h, round_intCast, ← h]
  field_simp

lemma round2R_of_rat {x : ℝ} {q : ℚ} {n : ℤ} (hx : x = (q : ℝ)) (h : 100 * q = (n : ℚ)) :
    round2R x = (q : ℝ) := by
  rw [hx, round2R_rat, round2Q_eq_self h]

/-- Unfolding of the match-score computation when the cosine succeeds. -/
lemma calculate_match_score_eval (cand : CandidateData) (post : InternshipData)
    (ve vp : List ℝ) (c : ℝ) (hc : calculate_cosine_similarity ve vp = some c) :
    calculate_match_score cand post ve vp = some
      { overall_score := round2R
          ((calculate_skills_match cand.all_skills post.required_skills post.preferred_skills : ℝ)
              * 0.45 +
            (calculate_experience_match cand.total_experience_years post.min_experience
                post.max_experience : ℝ) * 0.25 +
            (c * 100) * 0.10 +
            (calculate_education_match cand.education post.required_education : ℝ) * 0.10 +
            (calculate_additional_credentials cand.projects cand.certifications : ℝ) * 0.10)
        semantic_similarity := round2R (c * 100)
        skills_match := round2Q
          (calculate_skills_match cand.all_skills post.required_skills post.preferred_skills)
        experience_match := round2Q
          (calculate_experience_match cand.total_experience_years post.min_experience
            post.max_experience)
        education_match := round2Q (calculate_education_match cand.education post.required_education)
        projects_certifications := round2Q
          (calculate_additional_credentials cand.projects cand.certifications) } := by
  unfold calculate_match_score
  rw [hc]

lemma cos_ones : calculate_cosine_similarity [1] [1] = some 1 := by
  have hn : normL [1] = 1 := by
    unfold normL
    norm_num [normSqL, Real.sqrt_one]
  unfold calculate_cosine_similarity
  rw [hn]
  norm_num [dotL]

lemma cos_opp : calculate_cosine_similarity [1] [-1] = some (-1) := by
  have hn1 : normL [1] = 1 := by
    unfold normL
    norm_num [normSqL, Real.sqrt_one]
  have hn2 : normL [-1] = 1 := by
    unfold normL
    norm_num [normSqL, Real.sqrt_one]
  unfold calculate_cosine_similarity
  rw [hn1, hn2]
  norm_num [dotL]

/-- Sample candidate for the truncation counterexample: no skills, no
experience, no education, one project. -/
def candTrunc : CandidateData := ⟨[], 0, [], ["p"], []⟩

/-- Sample posting with one required skill the candidate lacks. -/
def postReq : InternshipData := ⟨["a"], [], 0, 10, ""⟩

/-- Match result for `candTrunc`/`postReq` with identical unit embeddings:
components semantic 100, skills 30, experience 100, education 70,
projects 12; composite 0.45·30+0.25·100+0.10·100+0.10·70+0.10·12 = 56.7. -/
noncomputable def resTrunc : MatchResult := ⟨567/10, 100, 30, 100, 70, 12⟩

lemma skills_empty_cand : calculate_skills_match [] ["a"] [] = 30 := by
  have h : List.countP (fun skill => skill_matched ([] : List (List Char)) skill)
      [normalize_skill "a"] = 0 := by decide
  simp only [calculate_skills_match, List.map_cons, List.map_nil]
  rw [h]
  norm_num

lemma skills_no_required : calculate_skills_match [] [] [] = 100 := by
  simp [calculate_skills_match]

lemma exp_in_band : calculate_experience_match 0 0 10 = 100 := by
  norm_num [calculate_experience_match]

lemma edu_neutral : calculate_education_match [] "" = 70 := by
  simp [calculate_education_match]

lemma creds_one_project : calculate_additional_credentials ["p"] [] = 12 := by
  norm_num [calculate_additional_credentials]

lemma creds_none : calculate_additional_credentials [] [] = 0 := by
  norm_num [calculate_additional_credentials]

lemma creds_three_certs : calculate_additional_credentials [] ["c1", "c2", "c3"] = 30 := by
  simp only [calculate_additional_credentials]
  norm_num
  rw [if_neg (by decide : ¬(["c1", "c2", "c3"] : List String) = [])]
  norm_num

lemma round2R_eval {x y : ℝ} {q : ℚ} {n : ℤ} (hx : x = (q : ℝ)) (h100 : 100 * q = (n : ℚ))
    (hy : (q : ℝ) = y) : round2R x = y := by
  rw [hx, round2R_rat, round2Q_eq_self h100, hy]

lemma eval_match_trunc : calculate_match_score candTrunc postReq [1] [1] = some resTrunc := by
  rw [calculate_match_score_eval candTrunc postReq [1] [1] 1 cos_ones]
  simp only [candTrunc, postReq, resTrunc]
  rw [skills_empty_cand, exp_in_band, edu_neutral, creds_one_project]
  simp only [Option.some.injEq, MatchResult.mk.injEq]
  refine ⟨?_, ?_, ?_, ?_, ?_, ?_⟩
  · exact round2R_eval (q := 567/10) (n := 5670) (by push_cast; norm_num) (by norm_num)
      (by norm_num)
  · exact round2R_eval (q := 100) (n := 10000) (by push_cast; norm_num) (by norm_num)
      (by norm_num)
  · exact round2Q_eq_self (n := 3000) (by norm_num)
  · exact round2Q_eq_self (n := 10000) (by norm_num)
  · exact round2Q_eq_self (n := 7000) (by norm_num)
  · exact round2Q_eq_self (n := 1200) (by norm_num)

/-- Candidate with nothing at all. -/
def candZero : CandidateData := ⟨[], 0, [], [], []⟩

/-- Posting with no requirements (skills component 100, education neutral). -/
def postOpen : InternshipData := ⟨[], [], 0, 10, ""⟩

/-- Match result for `candZero`/`postOpen` with opposite unit embeddings:
semantic −100, skills 100, experience 100, education 70, projects 0;
composite 45+25−10+7+0 = 67. -/
noncomputable def resNeg : MatchResult := ⟨67, -100, 100, 100, 70, 0⟩

lemma eval_match_neg : calculate_match_score candZero postOpen [1] [-1] = some resNeg := by
  rw [calculate_match_score_eval candZero postOpen [1] [-1] (-1) cos_opp]
  simp only [candZero, postOpen, resNeg]
  rw [skills_no_required, exp_in_band, edu_neutral, creds_none]
  simp only [Option.some.injEq, MatchResult.mk.injEq]
  refine ⟨?_, ?_, ?_, ?_, ?_, ?_⟩
  · exact round2R_eval (q := 67) (n := 6700) (by push_cast; norm_num) (by norm_num) (by norm_num)
  · exact round2R_eval (q := -100) (n := -10000) (by push_cast; norm_num) (by norm_num)
      (by norm_num)
  · exact round2Q_eq_self (n := 10000) (by norm_num)
  · exact round2Q_eq_self (n := 10000) (by norm_num)
  · exact round2Q_eq_self (n := 7000) (by norm_num)
  · exact round2Q_eq_self (n := 0) (by norm_num)

/-- Candidate whose only credentials are three certifications. -/
def candCerts : CandidateData := ⟨[], 0, [], [], ["c1", "c2", "c3"]⟩

/-- Match result for `candCerts`/`postOpen` with identical unit embeddings:
semantic 100, skills 100, experience 100, education 70, projects 30;
composite 45+25+10+7+3 = 90. -/
noncomputable def resNinety : MatchResult := ⟨90, 100, 100, 100, 70, 30⟩

lemma eval_match_ninety : calculate_match_score candCerts postOpen [1] [1] = some resNinety := by
  rw [calculate_match_score_eval candCerts postOpen [1] [1] 1 cos_ones]
  simp only [candCerts, postOpen, resNinety]
  rw [skills_no_required, exp_in_band, edu_neutral, creds_three_certs]
  simp only [Option.some.injEq, MatchResult.mk.injEq]
  refine ⟨?_, ?_, ?_, ?_, ?_, ?_⟩
  · exact round2R_eval (q := 90) (n := 9000) (by push_cast; norm_num) (by norm_num) (by norm_num)
  · exact round2R_eval (q := 100) (n := 10000) (by push_cast; norm_num) (by norm_num)
      (by norm_num)
  · exact round2Q_eq_self (n := 10000) (by norm_num)
  · exact round2Q_eq_self (n := 10000) (by norm_num)
  · exact round2Q_eq_self (n := 7000) (by norm_num)
  · exact round2Q_eq_self (n := 3000) (by norm_num)

lemma round2Q_bounds {x : ℚ} {a b : ℤ} (hax : (a : ℚ) ≤ x) (hxb : x ≤ (b : ℚ)) :
    (a : ℚ) ≤ round2Q x ∧ round2Q x ≤ (b : ℚ) := by
  unfold round2Q
  have hr1 : 100 * a ≤ round (100 * x) := by
    have h' : round ((100 * a : ℤ) : ℚ) ≤ round (100 * x) := by
      rw [round_eq, round_eq]
      exact Int.floor_le_floor (by push_cast; linarith)
    rwa [round_intCast] at h'
  have hr2 : round (100 * x) ≤ 100 * b := by
    have h' : round (100 * x) ≤ round ((100 * b : ℤ) : ℚ) := by
      rw [round_eq, round_eq]
      exact Int.floor_le_floor (by push_cast; linarith)
    rwa [round_intCast] at h'
  constructor
  · rw [le_div_iff (show (0:ℚ) < 100 by norm_num)]
    have h' : ((100 * a : ℤ) : ℚ) ≤ ((round (100 * x) : ℤ) : ℚ) := by exact_mod_cast hr1
    push_cast at h' ⊢
    linarith
  · rw [div_le_iff (show (0:ℚ) < 100 by norm_num)]
    have h' : ((round (100 * x) : ℤ) : ℚ) ≤ ((100 * b : ℤ) : ℚ) := by exact_mod_cast hr2
    push_cast at h' ⊢
    linarith

/-! ### Claim theorems -/

/-- C1 (counterexample): with candidate `candTrunc`, posting `postReq` and
identical unit embeddings the engine's composite is 56.7, whose nearest
integer is 57, but the Application-row score computed by
`apply_to_internship` is `int(56.7) = 56`: the stored score is the composite
truncated, not rounded to the nearest integer. -/
theorem application_score_truncates_not_rounds :
    (calculate_match_score candTrunc postReq [1] [1]).map application_similarity_score =
      some 56 ∧
    (calculate_match_score candTrunc postReq [1] [1]).map (fun r => round r.overall_score) =
      some 57 := by
  rw [eval_match_trunc]
  constructor
  · show some (application_similarity_score resTrunc) = some 56
    have h : application_similarity_score resTrunc = 56 := by
      unfold application_similarity_score pyTruncR resTrunc
      rw [if_pos (by norm_num)]
      norm_num
    rw [h]
  · show some (round resTrunc.overall_score) = some 57
    have h : round resTrunc.overall_score = 57 := by
      unfold resTrunc
      rw [show ((567/10 : ℝ)) = ((567/10 : ℚ) : ℝ) by norm_num, Rat.round_cast]
      norm_num [round_eq]
    rw [h]

/-- C1 (amended): for every candidate record, posting record and pair of
embeddings on which the cosine succeeds, the composite returned by the scoring
engine is the weighted sum `0.10·semantic + 0.45·skills + 0.25·experience +
0.10·education + 0.10·projects` rounded to two decimals, and the
`application_similarity_score` stored on an Application row is that composite
truncated toward zero by `int()` (not rounded to the nearest integer). -/
theorem composite_weighted_sum_and_truncation
    (cand : CandidateData) (post : InternshipData) (ve vp : List ℝ) (c : ℝ) (r : MatchResult)
    (hc : calculate_cosine_similarity ve vp = some c)
    (hr : calculate_match_score cand post ve vp = some r) :
    r.overall_score = round2R
      (0.10 * (100 * c) +
        0.45 * (calculate_skills_match cand.all_skills post.required_skills
          post.preferred_skills : ℝ) +
        0.25 * (calculate_experience_match cand.total_experience_years post.min_experience
          post.max_experience : ℝ) +
        0.10 * (calculate_education_match cand.education post.required_education : ℝ) +
        0.10 * (calculate_additional_credentials cand.projects cand.certifications : ℝ)) ∧
    application_similarity_score r = pyTruncR r.overall_score := by
  rw [calculate_match_score_eval cand post ve vp c hc] at hr
  injection hr with hr
  subst hr
  constructor
  · show round2R _ = round2R _
    congr 1
    ring
  · rfl

/-- C1 (witness): the amended theorem instantiated at `candTrunc`, `postReq`
and identical unit embeddings. -/
theorem composite_weighted_sum_and_truncation_witness :
    resTrunc.overall_score = round2R
      (0.10 * (100 * 1) +
        0.45 * (calculate_skills_match candTrunc.all_skills postReq.required_skills
          postReq.preferred_skills : ℝ) +
        0.25 * (calculate_experience_match candTrunc.total_experience_years
          postReq.min_experience postReq.max_experience : ℝ) +
        0.10 * (calculate_education_match candTrunc.education postReq.required_education : ℝ) +
        0.10 * (calculate_additional_credentials candTrunc.projects
          candTrunc.certifications : ℝ)) ∧
    application_similarity_score resTrunc = pyTruncR resTrunc.overall_score :=
  composite_weighted_sum_and_truncation candTrunc postReq [1] [1] 1 resTrunc cos_ones
    eval_match_trunc

/-- C2: the skills component is 100 when the required list is empty, and
otherwise `70·|matched required|/|R|` plus (`30·|matched preferred|/|P|` when
`P` is non-empty, else 30), where matching is the two-way substring test on
lowercased, trimmed skills; the component never exceeds 100; and a candidate
with `Node` matches a requirement `Node.js` (substring match), giving 100. -/
theorem skills_component_formula (C R P : List String) :
    calculate_skills_match C R P =
      (if R = [] then (100 : ℚ)
       else
        70 * ((R.map normalize_skill).countP
            (fun skill => skill_matched (C.map normalize_skill) skill) : ℚ) / (R.length : ℚ) +
          (if P = [] then (30 : ℚ)
           else 30 * ((P.map normalize_skill).countP
              (fun skill => skill_matched (C.map normalize_skill) skill) : ℚ) /
              (P.length : ℚ))) ∧
    calculate_skills_match C R P ≤ 100 ∧
    calculate_skills_match ["Node"] ["Node.js"] [] = 100 := by
  refine ⟨?_, (skills_match_bounds C R P).2, ?_⟩
  · simp only [calculate_skills_match, List.map_eq_nil, List.length_map]
    split_ifs with h hp
    · rfl
    · ring
    · ring
  · have h : List.countP (fun skill => skill_matched [normalize_skill "Node"] skill)
        [normalize_skill "Node.js"] = 1 := by decide
    simp only [calculate_skills_match, List.map_cons, List.map_nil]
    rw [h]
    norm_num

/-- C3: for a band `lo ≤ hi`, the experience component is exactly 100 on the
whole band (endpoints included), 90/70/50/30 below it according to the gap
`lo − y` (90 for gap ≤ 0.5 — so exactly 90 at `y = lo − 0.5` — then 70 for
gap ≤ 1, 50 for gap ≤ 2, 30 beyond), and exactly 85 for every `y > hi`. -/
theorem experience_component_bands (y lo hi : ℚ) (hband : lo ≤ hi) :
    (lo ≤ y → y ≤ hi → calculate_experience_match y lo hi = 100) ∧
    (y < lo → lo - y ≤ 1/2 → calculate_experience_match y lo hi = 90) ∧
    (y < lo → 1/2 < lo - y → lo - y ≤ 1 → calculate_experience_match y lo hi = 70) ∧
    (y < lo → 1 < lo - y → lo - y ≤ 2 → calculate_experience_match y lo hi = 50) ∧
    (y < lo → 2 < lo - y → calculate_experience_match y lo hi = 30) ∧
    (hi < y → calculate_experience_match y lo hi = 85) ∧
    calculate_experience_match lo lo hi = 100 ∧
    calculate_experience_match hi lo hi = 100 ∧
    calculate_experience_match (lo - 1/2) lo hi = 90 := by
  refine ⟨?_, ?_, ?_, ?_, ?_, ?_, ?_, ?_, ?_⟩
  · intro h1 h2
    simp only [calculate_experience_match]
    rw [if_pos ⟨h1, h2⟩]
  · intro h1 h2
    simp only [calculate_experience_match]
    rw [if_neg (fun hcon => absurd hcon.1 (not_le.mpr h1)), if_pos h1, if_pos h2]
  · intro h1 h2 h3
    simp only [calculate_experience_match]
    rw [if_neg (fun hcon => absurd hcon.1 (not_le.mpr h1)), if_pos h1,
      if_neg (not_le.mpr h2), if_pos h3]
  · intro h1 h2 h3
    simp only [calculate_experience_match]
    rw [if_neg (fun hcon => absurd hcon.1 (not_le.mpr h1)), if_pos h1,
      if_neg (not_le.mpr (by linarith)), if_neg (not_le.mpr h2), if_pos h3]
  · intro h1 h2
    simp only [calculate_experience_match]
    rw [if_neg (fun hcon => absurd hcon.1 (not_le.mpr h1)), if_pos h1,
      if_neg (not_le.mpr (by linarith)), if_neg (not_le.mpr (by linarith)),
      if_neg (not_le.mpr h2)]
  · intro h1
    simp only [calculate_experience_match]
    rw [if_neg (fun hcon => absurd hcon.2 (not_le.mpr h1)),
      if_neg (not_lt.mpr (le_trans hband (le_of_lt h1)))]
  · simp only [calculate_experience_match]
    rw [if_pos ⟨le_refl lo, hband⟩]
  · simp only [calculate_experience_match]
    rw [if_pos ⟨hband, le_refl hi⟩]
  · simp only [calculate_experience_match]
    rw [if_neg (fun hcon => by linarith [hcon.1]), if_pos (by linarith), if_pos (by linarith)]

/-- C3 (witness): the band theorem instantiated at the band [1, 3]: years 2
give 100, years 0 (gap 1) give 70, years 0.5 (gap 0.5) give 90. -/
theorem experience_component_bands_witness :
    calculate_experience_match 2 1 3 = 100 ∧ calculate_experience_match 0 1 3 = 70 ∧
    calculate_experience_match (1/2) 1 3 = 90 ∧ calculate_experience_match 4 1 3 = 85 :=
  ⟨(experience_component_bands 2 1 3 (by norm_num)).1 (by norm_num) (by norm_num),
   (experience_component_bands 0 1 3 (by norm_num)).2.2.1 (by norm_num) (by norm_num)
     (by norm_num),
   (experience_component_bands (1/2) 1 3 (by norm_num)).2.1 (by norm_num) (by norm_num),
   (experience_component_bands 4 1 3 (by norm_num)).2.2.2.2.2.1 (by norm_num)⟩

/-- C4: at applicant-ranking time, an application that used a tailored resume
with an embedding and for which a pre-computed base row exists gets the
blended score `0.8 · tailored application score + 0.2 · baseline`
(so tailored 90 and baseline 70 blend to 86), and with an empty tailored
embedding the ranking falls back to the baseline composite. -/
theorem tailored_ranking_blend (td : CandidateData) (pd : InternshipData)
    (temb pemb : List ℝ) (b : BatchMatchRow) (r : MatchResult)
    (hne : temb ≠ [])
    (hr : calculate_match_score td pd temb pemb = some r) :
    ranking_score_for_applicant true true td pd temb pemb (some b) =
      some (0.8 * r.overall_score + 0.2 * b.base_similarity_score) ∧
    ranking_score_for_applicant true true td pd [] pemb (some b) =
      some b.base_similarity_score ∧
    (0.8 : ℝ) * 90 + 0.2 * 70 = 86 := by
  refine ⟨?_, ?_, by norm_num⟩
  · unfold ranking_score_for_applicant
    simp only [Bool.and_self, if_true]
    rw [if_neg (by simpa [List.length_eq_zero] using hne), hr]
    show some _ = some _
    congr 1
    ring
  · unfold ranking_score_for_applicant
    simp only [Bool.and_self, List.length_nil, if_true]
    rfl

/-- C4 (witness): the blend theorem instantiated with a tailored resume whose
recomputed score is 90 and a pre-computed baseline of 70: the ranking score is
86; with the tailored embedding missing it is the baseline 70. -/
theorem tailored_ranking_blend_witness :
    ranking_score_for_applicant true true candCerts postOpen [1] [1]
      (some ⟨70, 0, 0, 0⟩) = some 86 ∧
    ranking_score_for_applicant true true candCerts postOpen [] [1]
      (some ⟨70, 0, 0, 0⟩) = some 70 := by
  have h := tailored_ranking_blend candCerts postOpen [1] [1] ⟨70, 0, 0, 0⟩ resNinety
    (by simp) eval_match_ninety
  refine ⟨?_, ?_⟩
  · rw [h.1]
    norm_num [resNinety]
  · rw [h.2.1]

/-- C5 (counterexample): with opposite unit embeddings the batch pre-computer
stores a Match row whose `semantic_similarity` column is −100, which is
outside [0, 100]: the stored semantic component can be negative. -/
theorem stored_semantic_can_be_negative :
    (batch_calculate_match candZero [1] postOpen [-1]).map
      (fun row => row.semantic_similarity) = some (-100) ∧ ((-100 : ℝ) < 0) := by
  constructor
  · unfold batch_calculate_match
    rw [eval_match_neg]
    show some resNeg.semantic_similarity = some (-100)
    rw [show resNeg.semantic_similarity = (-100 : ℝ) from rfl]
  · norm_num

/-- C5 (amended): for every successful scoring the stored composite, skills
and experience components lie in [0, 100], and so do both Application scores —
`application_similarity_score`, and `match_score` whether it keeps the
application score or falls back to (the truncation of) a stored baseline
composite, the baseline being itself a stored composite in [0, 100].  The
stored semantic component, however, lies in [−100, 100], not [0, 100].  The
batch row stores exactly these component values. -/
theorem stored_scores_bounds (cand : CandidateData) (post : InternshipData)
    (ve vp : List ℝ) (r : MatchResult)
    (hr : calculate_match_score cand post ve vp = some r) :
    (0 ≤ r.overall_score ∧ r.overall_score ≤ 100) ∧
    (0 ≤ r.skills_match ∧ r.skills_match ≤ 100) ∧
    (0 ≤ r.experience_match ∧ r.experience_match ≤ 100) ∧
    (-100 ≤ r.semantic_similarity ∧ r.semantic_similarity ≤ 100) ∧
    (0 ≤ application_similarity_score r ∧ application_similarity_score r ≤ 100) ∧
    (∀ base : ℝ, 0 ≤ base → base ≤ 100 →
      0 ≤ final_match_score (application_similarity_score r) (some base) ∧
      final_match_score (application_similarity_score r) (some base) ≤ 100) ∧
    final_match_score (application_similarity_score r) none =
      application_similarity_score r ∧
    batch_calculate_match cand ve post vp =
      some ⟨r.overall_score, r.semantic_similarity, r.skills_match, r.experience_match⟩ := by
  have hbatch : batch_calculate_match cand ve post vp =
      some ⟨r.overall_score, r.semantic_similarity, r.skills_match, r.experience_match⟩ := by
    unfold batch_calculate_match
    rw [hr]
    rfl
  cases hcos : calculate_cosine_similarity ve vp with
  | none =>
    unfold calculate_match_score at hr
    rw [hcos] at hr
    cases hr
  | some c =>
    rw [calculate_match_score_eval cand post ve vp c hcos] at hr
    injection hr with hr
    subst hr
    set S := calculate_skills_match cand.all_skills post.required_skills post.preferred_skills
      with hS
    set E := calculate_experience_match cand.total_experience_years post.min_experience
      post.max_experience with hE
    set D := calculate_education_match cand.education post.required_education with hD
    set Cr := calculate_additional_credentials cand.projects cand.certifications with hCr
    obtain ⟨hc1, hc2⟩ := cosine_some_bounds hcos
    obtain ⟨hsk1, hsk2⟩ := skills_match_bounds cand.all_skills post.required_skills
      post.preferred_skills
    obtain ⟨hex1, hex2⟩ := experience_match_bounds_aux cand.total_experience_years
      post.min_experience post.max_experience
    obtain ⟨hed1, hed2⟩ := education_match_bounds_aux cand.education post.required_education
    obtain ⟨hcr1, hcr2⟩ := additional_credentials_bounds cand.projects cand.certifications
    rw [← hS] at hsk1 hsk2
    rw [← hE] at hex1 hex2
    rw [← hD] at hed1 hed2
    rw [← hCr] at hcr1 hcr2
    have hSR1 : (0:ℝ) ≤ (S:ℝ) := by exact_mod_cast hsk1
    have hSR2 : (S:ℝ) ≤ 100 := by exact_mod_cast hsk2
    have hER1 : (30:ℝ) ≤ (E:ℝ) := by exact_mod_cast hex1
    have hER2 : (E:ℝ) ≤ 100 := by exact_mod_cast hex2
    have hDR1 : (50:ℝ) ≤ (D:ℝ) := by exact_mod_cast hed1
    have hDR2 : (D:ℝ) ≤ 100 := by exact_mod_cast hed2
    have hCR1 : (0:ℝ) ≤ (Cr:ℝ) := by exact_mod_cast hcr1
    have hCR2 : (Cr:ℝ) ≤ 100 := by exact_mod_cast hcr2
    have hov := round2R_bounds (a := 0) (b := 100)
      (x := (S:ℝ) * 0.45 + (E:ℝ) * 0.25 + c * 100 * 0.10 + (D:ℝ) * 0.10 + (Cr:ℝ) * 0.10)
      (by push_cast; linarith) (by push_cast; linarith)
    have hsem := round2R_bounds (a := -100) (b := 100) (x := c * 100)
      (by push_cast; linarith) (by push_cast; linarith)
    have hov0 : (0:ℝ) ≤ round2R
        ((S:ℝ) * 0.45 + (E:ℝ) * 0.25 + c * 100 * 0.10 + (D:ℝ) * 0.10 + (Cr:ℝ) * 0.10) := by
      have h' := hov.1; push_cast at h'; exact h'
    have hov100 : round2R
        ((S:ℝ) * 0.45 + (E:ℝ) * 0.25 + c * 100 * 0.10 + (D:ℝ) * 0.10 + (Cr:ℝ) * 0.10) ≤ 100 := by
      have h' := hov.2; push_cast at h'; exact h'
    have hskQ := round2Q_bounds (a := 0) (b := 100) (x := S)
      (by exact_mod_cast hsk1) (by exact_mod_cast hsk2)
    have hexQ := round2Q_bounds (a := 0) (b := 100) (x := E)
      (by push_cast; linarith) (by exact_mod_cast hex2)
    have htr := pyTruncR_bounds (b := 100) hov0 (by push_cast at hov100 ⊢; exact hov100)
    refine ⟨⟨hov0, hov100⟩, ⟨?_, ?_⟩, ⟨?_, ?_⟩, ⟨?_, ?_⟩, ⟨htr.1, htr.2⟩, ?_, rfl, hbatch⟩
    · have h' := hskQ.1; push_cast at h'; exact h'
    · have h' := hskQ.2; push_cast at h'; exact h'
    · have h' := hexQ.1; push_cast at h'; exact h'
    · have h' := hexQ.2; push_cast at h'; exact h'
    · have h' := hsem.1; push_cast at h'; exact h'
    · have h' := hsem.2; push_cast at h'; exact h'
    · intro base hb0 hb100
      simp only [final_match_score]
      split_ifs
      · exact pyTruncR_bounds hb0 (by push_cast; exact hb100)
      · exact ⟨htr.1, htr.2⟩

/-- C5 (witness): the bounds theorem instantiated at `candTrunc`, `postReq`,
identical unit embeddings, and a concrete baseline composite of 70. -/
theorem stored_scores_bounds_witness :
    (0 ≤ resTrunc.overall_score ∧ resTrunc.overall_score ≤ 100) ∧
    (0 ≤ resTrunc.skills_match ∧ resTrunc.skills_match ≤ 100) ∧
    (0 ≤ resTrunc.experience_match ∧ resTrunc.experience_match ≤ 100) ∧
    (-100 ≤ resTrunc.semantic_similarity ∧ resTrunc.semantic_similarity ≤ 100) ∧
    (0 ≤ application_similarity_score resTrunc ∧
      application_similarity_score resTrunc ≤ 100) ∧
    (0 ≤ final_match_score (application_similarity_score resTrunc) (some 70) ∧
      final_match_score (application_similarity_score resTrunc) (some 70) ≤ 100) ∧
    final_match_score (application_similarity_score resTrunc) none =
      application_similarity_score resTrunc ∧
    batch_calculate_match candTrunc [1] postReq [1] =
      some ⟨resTrunc.overall_score, resTrunc.semantic_similarity, resTrunc.skills_match,
        resTrunc.experience_match⟩ := by
  have h := stored_scores_bounds candTrunc postReq [1] [1] resTrunc eval_match_trunc
  exact ⟨h.1, h.2.1, h.2.2.1, h.2.2.2.1, h.2.2.2.2.1,
    h.2.2.2.2.2.1 70 (by norm_num) (by norm_num), h.2.2.2.2.2.2.1, h.2.2.2.2.2.2.2⟩

/-- C6: when the candidate or posting embedding is missing (empty) or a zero
vector, the scoring engine fails (the cosine raises instead of returning a
fallback), the batch pre-computer gets no row for the pair, and the per-student
batch loop over any internship list produces exactly the rows of the remaining
pairs. -/
theorem missing_embedding_skips_pair (cand : CandidateData) (cemb : List ℝ)
    (post : InternshipData) (pemb : List ℝ) (xs ys : List (InternshipData × List ℝ))
    (h : cemb = [] ∨ normSqL cemb = 0 ∨ pemb = [] ∨ normSqL pemb = 0) :
    calculate_cosine_similarity cemb pemb = none ∧
    batch_calculate_match cand cemb post pemb = none ∧
    compute_student_matches cand cemb (xs ++ (post, pemb) :: ys) =
      compute_student_matches cand cemb (xs ++ ys) := by
  have hcos : calculate_cosine_similarity cemb pemb = none := by
    unfold calculate_cosine_similarity
    by_cases hlen : cemb.length = 0 ∨ pemb.length = 0
    · rw [if_pos hlen]
    · rw [if_neg hlen]
      rcases h with h | h | h | h
      · exact absurd (Or.inl (by rw [h]; rfl)) hlen
      · rw [if_pos (Or.inl (by unfold normL; rw [h, Real.sqrt_zero]))]
      · exact absurd (Or.inr (by rw [h]; rfl)) hlen
      · rw [if_pos (Or.inr (by unfold normL; rw [h, Real.sqrt_zero]))]
  have hmatch : calculate_match_score cand post cemb pemb = none := by
    unfold calculate_match_score
    rw [hcos]
  have hbatch : batch_calculate_match cand cemb post pemb = none := by
    unfold batch_calculate_match
    rw [hmatch]
    rfl
  refine ⟨hcos, hbatch, ?_⟩
  unfold compute_student_matches
  rw [List.filterMap_append, List.filterMap_append]
  congr 1
  exact List.filterMap_cons_none hbatch

/-- C6 (witness): the skip theorem instantiated with the zero vector `[0]` as
candidate embedding and a one-internship batch. -/
theorem missing_embedding_skips_pair_witness :
    calculate_cosine_similarity [0] [1] = none ∧
    batch_calculate_match candZero [0] postOpen [1] = none ∧
    compute_student_matches candZero [0] ([] ++ (postOpen, [1]) :: []) =
      compute_student_matches candZero [0] ([] ++ []) :=
  missing_embedding_skips_pair candZero [0] postOpen [1] [] []
    (Or.inr (Or.inl (by norm_num [normSqL])))

/-- C7 (counterexample): on the two spans 2022-01..2023-01 and
2022-06..2023-06 the experience computation returns 17 months, not the 18 the
claim states (the merged span 2022-01..2023-06 covers 17 months). -/
theorem overlap_merge_example_not_18 :
    calculate_total_experience ⟨2025, 10, 12⟩
      [⟨"2022-01", "2023-01"⟩, ⟨"2022-06", "2023-06"⟩] = 17 ∧
    calculate_total_experience ⟨2025, 10, 12⟩
      [⟨"2022-01", "2023-01"⟩, ⟨"2022-06", "2023-06"⟩] ≠ 18 := by decide

/-- C7 (amended): the total-experience computation parses each span to a month
range, sorts by start, merges ranges whose start is at or before the current
end, and sums merged lengths in months; on the spans 2022-01..2023-01 and
2022-06..2023-06 it returns 17 (whatever the current date, which these spans
never consult). -/
theorem overlap_merge_example_17 (today : PyDate) :
    calculate_total_experience today
      [⟨"2022-01", "2023-01"⟩, ⟨"2022-06", "2023-06"⟩] = 17 := rfl

/-- C8 (counterexample): `all_skills` built from technical `["Python"]` and
soft `["python"]` contains both spellings, two entries that are equal ignoring
case — the deduplication is by exact string equality, not case-insensitive. -/
theorem all_skills_case_sensitive_duplicates :
    "Python" ∈ extract_all_skills ["Python"] ["python"] ∧
    "python" ∈ extract_all_skills ["Python"] ["python"] ∧
    pyLowerChars "Python" = pyLowerChars "python" ∧
    "Python" ≠ "python" := by decide

/-- C8 (amended): `all_skills` is the concatenated technical-then-soft list
deduplicated by exact (case-sensitive) string equality: no two entries are
equal as strings, and a string occurs in `all_skills` iff it occurs in the
concatenation; entries differing only in case are all retained. -/
theorem all_skills_exact_dedup (technical soft : List String) :
    (extract_all_skills technical soft).Nodup ∧
    ∀ s : String, s ∈ extract_all_skills technical soft ↔ s ∈ technical ++ soft :=
  ⟨List.nodup_dedup _, fun _ => List.mem_dedup⟩

/-- C9 (counterexample): with the filter string `"Python,Rust"` a posting
requiring only `Python` is kept even though `Rust` is not among its required
skills — the filter keeps a posting when ANY provided skill matches, not when
all of them do. -/
theorem skills_filter_any_not_all :
    recommendation_skills_filter "Python,Rust" ["Python"] = true ∧
    ("Rust" ∈ (["Python"] : List String) → False) := by decide

/-- C9 (amended): the recommendations skills filter keeps a posting iff at
least one of the comma-separated, stripped filter skills is an exact member of
the posting's `required_skills` (an any-match, not a superset test). -/
theorem skills_filter_keeps_iff_any (skills : String) (required_skills : List String) :
    recommendation_skills_filter skills required_skills = true ↔
      ∃ s ∈ (splitChar ',' skills.toList).map trimChars,
        s ∈ required_skills.map String.toList := by
  unfold recommendation_skills_filter
  simp [List.any_eq_true]

/-- C10: for every list of experience entries, whatever their date strings,
the computed total experience is a non-negative number of months; in
particular a single span whose end month precedes its start month contributes
0 rather than a negative amount. -/
theorem total_experience_nonneg :
    (∀ (today : PyDate) (exps : List ExperienceEntry),
      0 ≤ calculate_total_experience today exps) ∧
    (∀ today : PyDate, calculate_total_experience today [⟨"2023-05", "2022-01"⟩] = 0) := by
  constructor
  · intro today exps
    simp only [calculate_total_experience]
    cases hsort : sort_by (fun p q => dateLE p.1 q.1)
        (exps.filterMap (parse_date_range today)) with
    | nil => exact le_refl 0
    | cons first rest =>
      apply List.sum_nonneg
      intro x hx
      obtain ⟨rg, _, rfl⟩ := List.mem_map.mp hx
      exact le_max_left 0 _
  · intro today
    rfl
